import Mathlib

/-!
Verification of the `stack-cstr` crate: a shallow embedding of its string
construction paths (`CStrStack<N>::new`, the `cstr!` macro, and the
`CArrayString<N>` unified type with its conversions), together with proofs
about the properties the crate is supposed to satisfy.

Bytes are modelled as `Nat` (only the values `0`..`255` ever occur in the
byte lists produced by the embedded operations).  A Rust `str`/`String` is a
byte list; a `&CStr` or `CString` is its `to_bytes()` content, the single
trailing NUL terminator being kept implicit in the type and explicit in the
buffers that store it.
-/

set_option maxHeartbeats 1000000
set_option maxRecDepth 100000

/-- Model of `std::fmt::Arguments`: rendering emits `pieces` (chunks of UTF-8
text, as byte lists) in order into the sink, and afterwards reports a
formatter error iff `fails` is true.  Rendering is deterministic: the same
`Arguments` value emits the same chunks into every sink. -/
structure FmtArgs where
  pieces : List (List Nat)
  fails : Bool
deriving DecidableEq

/-- `arrayvec::ArrayString::try_push_str`: an all-or-nothing append under the
fixed capacity `cap` (from `arrayvec`, used by both construction paths). -/
def tryPushStr (cap : Nat) (buf piece : List Nat) : Option (List Nat) :=
  if buf.length + piece.length ≤ cap then some (buf ++ piece) else none

/-- The piece-by-piece loop of `std::fmt::write` into an `ArrayString<N>`
sink: each emitted chunk goes through `try_push_str`; a chunk that does not
fit makes the write fail with `fmt::Error`. -/
def fmtWriteGo (N : Nat) (buf : List Nat) : List (List Nat) → Except Unit (List Nat)
  | [] => .ok buf
  | p :: rest =>
    match tryPushStr N buf p with
    | some buf2 => fmtWriteGo N buf2 rest
    | none => .error ()

/-- `std::fmt::write(&mut buf, fmt)` for `buf : ArrayString<N>`: write all
chunks, then surface the formatter's own error if it reported one.  The
result is `Except Unit`, mirroring `core::fmt::Error` carrying no data. -/
def fmtWrite (N : Nat) (args : FmtArgs) : Except Unit (List Nat) :=
  match fmtWriteGo N [] args.pieces with
  | .ok buf => if args.fails then .error () else .ok buf
  | .error e => .error e

/-- `std::fmt::format(fmt)` / `format!`: render into a growable `String`
(which never rejects a chunk); panics — modelled as `none` — when the
formatter itself fails. -/
def fmtRender (args : FmtArgs) : Option (List Nat) :=
  if args.fails then none else some args.pieces.flatten

instance {ε α : Type} [DecidableEq ε] [DecidableEq α] : DecidableEq (Except ε α) :=
  fun a b =>
    match a, b with
    | .ok x, .ok y =>
      if h : x = y then .isTrue (by rw [h]) else .isFalse (fun k => h (by cases k; rfl))
    | .error x, .error y =>
      if h : x = y then .isTrue (by rw [h]) else .isFalse (fun k => h (by cases k; rfl))
    | .ok _, .error _ => .isFalse (fun k => by cases k)
    | .error _, .ok _ => .isFalse (fun k => by cases k)

/-- Model of `std::ffi::CString`: `bytes` is `as_bytes()` content without the
trailing terminator. -/
structure CStringM where
  bytes : List Nat
deriving DecidableEq

/-- `CString::new(s)`: scans the input for a NUL byte and fails with
`NulError` (carrying the byte's position) when one is present. -/
def CStringM.new (s : List Nat) : Except Nat CStringM :=
  if 0 ∈ s then .error (s.indexOf 0) else .ok ⟨s⟩

/-- Model of a borrowed `&CStr`: `bytes` is `to_bytes()`, i.e. the content
without the trailing terminator. -/
structure CStrM where
  bytes : List Nat
deriving DecidableEq

/-- `CStrStack<N>` (src/cstr_stack.rs): a fixed `[u8; N]` buffer plus the
length of the stored content (terminator excluded). -/
structure CStrStack (N : Nat) where
  buf : List Nat
  len : Nat
deriving DecidableEq

/-- `dst[..src.len()].copy_from_slice(src)` on byte slices. -/
def copyFromSlice (dst src : List Nat) : List Nat :=
  src ++ dst.drop src.length

/-- The buffer assembled by `CStrStack::new`: start from `[0u8; N]`, copy the
formatted bytes into the front, then store an explicit `0` at index `len`. -/
def CStrStack.mkBuf (N : Nat) (bytes : List Nat) : List Nat :=
  (copyFromSlice (List.replicate N 0) bytes).set bytes.length 0

/-- `CStrStack::<N>::new(fmt)` (src/cstr_stack.rs lines 52-69): format into an
`ArrayString<N>`, mapping a failed write to `"format failed"`; reject the
result with `"stack buffer overflow"` when no room is left for the
terminator; otherwise build the zero-initialised buffer. -/
def CStrStack.new (N : Nat) (fmt : FmtArgs) : Except String (CStrStack N) :=
  match fmtWrite N fmt with
  | .error _ => .error "format failed"
  | .ok bytes =>
    if bytes.length + 1 > N then .error "stack buffer overflow"
    else .ok ⟨CStrStack.mkBuf N bytes, bytes.length⟩

/-- `CStrStack::as_cstr().to_bytes()`: the `CStr` is built (unchecked) over
`buf[..len + 1]`, and `to_bytes` drops the final byte of that slice. -/
def CStrStack.viewBytes {N : Nat} (s : CStrStack N) : List Nat :=
  (s.buf.take (s.len + 1)).dropLast

/-- `CStrHeap` (src/cstr_heap.rs): a wrapper around an owned `CString`. -/
structure CStrHeap where
  cstr : CStringM
deriving DecidableEq

/-- `CStrHeap::new`. -/
def CStrHeap.new (s : CStringM) : CStrHeap := ⟨s⟩

/-- `CStrHeap::as_cstr().to_bytes()`. -/
def CStrHeap.viewBytes (h : CStrHeap) : List Nat := h.cstr.bytes

/-- The `Box<dyn CStrLike>` returned by the `cstr!` macro: either some
`CStrStack<N>` (each capacity a distinct concrete type) or a `CStrHeap`. -/
inductive CStrBoxed where
  | stack : (N : Nat) → CStrStack N → CStrBoxed
  | heap : CStrHeap → CStrBoxed

/-- `CStrLike::as_cstr().to_bytes()` through the trait object. -/
def CStrBoxed.viewBytes : CStrBoxed → List Nat
  | .stack _ s => s.viewBytes
  | .heap h => h.viewBytes

/-- Which stack capacity backs the boxed value (`none` when heap-backed). -/
def CStrBoxed.stackCap : CStrBoxed → Option Nat
  | .stack n _ => some n
  | .heap _ => none

/-- The `cstr!([sizes...], args)` macro (src/macros.rs lines 64-83): try
`CStrStack::<size>::new(args)` for each candidate size in order, boxing the
first success; when every candidate fails, fall back to
`CStrHeap::new(CString::new(format!(args)).unwrap())`.  `none` models a
panic (of `format!` on a formatter error, or of `.unwrap()` on `NulError`). -/
def cstrMacro (sizes : List Nat) (args : FmtArgs) : Option CStrBoxed :=
  match sizes with
  | [] =>
    match fmtRender args with
    | none => none
    | some s =>
      match CStringM.new s with
      | .ok c => some (.heap (CStrHeap.new c))
      | .error _ => none
  | n :: rest =>
    match CStrStack.new n args with
    | .ok s => some (.stack n s)
    | .error _ => cstrMacro rest args

/-- The error enum of src/error.rs (`CStrError`), payloads reduced to the
data the wrapped std/arrayvec errors carry that the model can express: the
overflowing element for `CapacityError<char>` and the NUL position for
`NulError`. -/
inductive CStrError where
  | FormatError
  | OverflowError (elem : Nat)
  | FromBytesWithNulError
  | NulError (pos : Nat)
  | ContainsNulError
deriving DecidableEq

/-- `CArrayString<N>` (src/c_array_string.rs): `Stack` holds the bytes of the
inner `ArrayString<N>` (which include the pushed `'\0'`), `Heap` an owned
`CString`. -/
inductive CArrayString (N : Nat) where
  | Stack (s : List Nat)
  | Heap (s : CStringM)
deriving DecidableEq

/-- The inner `try_stack` of `CArrayString::new` (src/c_array_string.rs lines
164-171): `fmt::write` into an `ArrayString<N>`, then `try_push('\0')`. -/
def tryStackArr (N : Nat) (fmt : FmtArgs) : Except CStrError (List Nat) :=
  match fmtWrite N fmt with
  | .error _ => .error .FormatError
  | .ok buf =>
    if buf.length + 1 ≤ N then .ok (buf ++ [0]) else .error (.OverflowError 0)

/-- `CArrayString::<N>::new(fmt)` (src/c_array_string.rs lines 163-177): on
any `try_stack` error, fall back to
`CString::new(std::fmt::format(fmt)).unwrap()`; `none` models a panic of
that fallback. -/
def CArrayString.new (N : Nat) (fmt : FmtArgs) : Option (CArrayString N) :=
  match tryStackArr N fmt with
  | .ok arr => some (.Stack arr)
  | .error _ =>
    match fmtRender fmt with
    | none => none
    | some s =>
      match CStringM.new s with
      | .ok c => some (.Heap c)
      | .error _ => none

/-- `From<&CStr> for CArrayString<N>` (src/c_array_string.rs lines 13-24):
contents shorter than `N` are pushed into an `ArrayString` followed by a
`'\0'`; otherwise the `CStr` is copied to an owned `CString`. -/
def CArrayString.fromCStr (N : Nat) (value : CStrM) : CArrayString N :=
  if value.bytes.length < N then .Stack (value.bytes ++ [0]) else .Heap ⟨value.bytes⟩

/-- `From<CString> for CArrayString<N>` (src/c_array_string.rs lines 42-46). -/
def CArrayString.fromCString (N : Nat) (value : CStringM) : CArrayString N :=
  .Heap value

/-- `core::slice::memchr::memchr(b, s)`: index of the first occurrence. -/
def memchr (b : Nat) : List Nat → Option Nat
  | [] => none
  | a :: rest => if a = b then some 0 else (memchr b rest).map (· + 1)

/-- `TryFrom<&str> for CArrayString<N>` (src/c_array_string.rs lines 48-67):
short inputs are scanned with `memchr` and stored inline, longer inputs go
through `CString::new`. -/
def CArrayString.tryFromStr (N : Nat) (value : List Nat) : Except CStrError (CArrayString N) :=
  if value.length < N then
    match memchr 0 value with
    | some _ => .error .ContainsNulError
    | none => .ok (.Stack (value ++ [0]))
  else
    match CStringM.new value with
    | .ok c => .ok (.Heap c)
    | .error p => .error (.NulError p)

/-- `CArrayString::as_c_str().to_bytes()` (src/c_array_string.rs lines
220-225): the stack variant views its `ArrayString` bytes minus the stored
terminator, the heap variant views the `CString` content. -/
def CArrayString.viewBytes {N : Nat} : CArrayString N → List Nat
  | .Stack s => s.dropLast
  | .Heap c => c.bytes

/-- The NUL-terminated byte run reachable from `CArrayString::as_ptr()`: the
stack variant exposes the `ArrayString` bytes, the heap variant the
`CString` content followed by its terminator. -/
def CArrayString.ptrRun {N : Nat} : CArrayString N → List Nat
  | .Stack s => s
  | .Heap c => c.bytes ++ [0]

/-- Classifies the error variants that signal an embedded NUL in the source
text (`NulError` from std and the crate's own `ContainsNulError`). -/
def CStrError.isEmbeddedNul : CStrError → Bool
  | .NulError _ => true
  | .ContainsNulError => true
  | _ => false

/-- Whether a conversion result is a failure signalling an embedded NUL. -/
def embeddedNulResult {N : Nat} : Except CStrError (CArrayString N) → Bool
  | .error e => e.isEmbeddedNul
  | .ok _ => false

/-- One UTF-8 continuation byte (`0x80`..`0xBF`). -/
def isCont (b : Nat) : Bool :=
  if 0x80 ≤ b ∧ b ≤ 0xBF then true else false

/-- A standard UTF-8 validity check over a byte list (shortest-form,
surrogate-excluding, max `U+10FFFF`). -/
def utf8Check : List Nat → Bool
  | [] => true
  | b :: rest =>
    if b ≤ 0x7F then utf8Check rest
    else if 0xC2 ≤ b ∧ b ≤ 0xDF then
      match rest with
      | c :: rest2 => if isCont c then utf8Check rest2 else false
      | [] => false
    else if b = 0xE0 then
      match rest with
      | c :: d :: rest2 =>
        if (0xA0 ≤ c ∧ c ≤ 0xBF) ∧ isCont d then utf8Check rest2 else false
      | _ => false
    else if (0xE1 ≤ b ∧ b ≤ 0xEC) ∨ b = 0xEE ∨ b = 0xEF then
      match rest with
      | c :: d :: rest2 => if isCont c ∧ isCont d then utf8Check rest2 else false
      | _ => false
    else if b = 0xED then
      match rest with
      | c :: d :: rest2 =>
        if (0x80 ≤ c ∧ c ≤ 0x9F) ∧ isCont d then utf8Check rest2 else false
      | _ => false
    else if b = 0xF0 then
      match rest with
      | c :: d :: e :: rest2 =>
        if (0x90 ≤ c ∧ c ≤ 0xBF) ∧ isCont d ∧ isCont e then utf8Check rest2 else false
      | _ => false
    else if 0xF1 ≤ b ∧ b ≤ 0xF3 then
      match rest with
      | c :: d :: e :: rest2 =>
        if isCont c ∧ isCont d ∧ isCont e then utf8Check rest2 else false
      | _ => false
    else if b = 0xF4 then
      match rest with
      | c :: d :: e :: rest2 =>
        if (0x80 ≤ c ∧ c ≤ 0x8F) ∧ isCont d ∧ isCont e then utf8Check rest2 else false
      | _ => false
    else false

/-! ### Characterization lemmas for the embedded operations -/

/-- The write loop succeeds exactly when the total emitted content fits the
capacity, and then the buffer holds everything emitted so far. -/
theorem fmtWriteGo_eq (N : Nat) (pieces : List (List Nat)) (buf : List Nat)
    (h : buf.length ≤ N) :
    fmtWriteGo N buf pieces =
      if buf.length + pieces.flatten.length ≤ N then .ok (buf ++ pieces.flatten)
      else .error () := by
  induction pieces generalizing buf with
  | nil => simp [fmtWriteGo, h]
  | cons p rest ih =>
    by_cases hc : buf.length + p.length ≤ N
    · simp only [fmtWriteGo, tryPushStr, if_pos hc]
      rw [ih (buf ++ p) (by simp only [List.length_append]; omega)]
      simp only [List.flatten_cons, List.length_append, List.append_assoc, Nat.add_assoc]
    · simp only [fmtWriteGo, tryPushStr, if_neg hc]
      have hc2 : ¬ (buf.length + (p :: rest).flatten.length ≤ N) := by
        simp only [List.flatten_cons, List.length_append]
        omega
      rw [if_neg hc2]

/-- `std::fmt::write` into an `ArrayString<N>` when the formatter itself does
not fail: succeeds with the full rendered content iff it fits. -/
theorem fmtWrite_eq (N : Nat) (args : FmtArgs) (h : args.fails = false) :
    fmtWrite N args =
      if args.pieces.flatten.length ≤ N then .ok args.pieces.flatten else .error () := by
  unfold fmtWrite
  rw [fmtWriteGo_eq N args.pieces [] (by simp)]
  simp only [List.length_nil, Nat.zero_add, List.nil_append]
  by_cases hc : args.pieces.flatten.length ≤ N
  · rw [if_pos hc]
    simp [h]
  · rw [if_neg hc]

/-- A failing formatter makes every bounded-sink write fail. -/
theorem fmtWrite_fails (N : Nat) (args : FmtArgs) (h : args.fails = true) :
    fmtWrite N args = .error () := by
  unfold fmtWrite
  cases hgo : fmtWriteGo N [] args.pieces with
  | ok buf => simp [h]
  | error e => rfl

/-- The buffer built by `CStrStack::new`: content followed by all-zero
padding (the terminator is the first of those zeros). -/
theorem mkBuf_eq (N : Nat) (bytes : List Nat) (h : bytes.length + 1 ≤ N) :
    CStrStack.mkBuf N bytes = bytes ++ List.replicate (N - bytes.length) 0 := by
  unfold CStrStack.mkBuf copyFromSlice
  rw [List.drop_replicate]
  rw [List.set_append]
  simp only [Nat.lt_irrefl, if_neg (by omega : ¬ bytes.length < bytes.length)]
  rw [Nat.sub_self]
  cases hk : N - bytes.length with
  | zero => omega
  | succ k => simp [List.replicate_succ]

/-- Full characterization of `CStrStack::<N>::new` for a non-failing
formatter: success (with the zero-padded buffer) iff the content and its
terminator fit; content of length exactly `N` gives `"stack buffer
overflow"`; longer content makes `fmt::write` itself fail, which surfaces as
`"format failed"`. -/
theorem cstrStackNew_eq (N : Nat) (args : FmtArgs) (h : args.fails = false) :
    CStrStack.new N args =
      if args.pieces.flatten.length + 1 ≤ N then
        .ok ⟨args.pieces.flatten ++ List.replicate (N - args.pieces.flatten.length) 0,
             args.pieces.flatten.length⟩
      else if args.pieces.flatten.length ≤ N then .error "stack buffer overflow"
      else .error "format failed" := by
  unfold CStrStack.new
  rw [fmtWrite_eq N args h]
  by_cases hfit : args.pieces.flatten.length ≤ N
  · rw [if_pos hfit]
    by_cases hterm : args.pieces.flatten.length + 1 ≤ N
    · simp only [if_neg (by omega : ¬ args.pieces.flatten.length + 1 > N), if_pos hterm]
      rw [mkBuf_eq N _ hterm]
    · simp only [if_pos (by omega : args.pieces.flatten.length + 1 > N), if_neg hterm,
        if_pos hfit]
  · rw [if_neg hfit]
    rw [if_neg (by omega : ¬ args.pieces.flatten.length + 1 ≤ N), if_neg hfit]

/-- With a failing formatter, `CStrStack::new` always reports
`"format failed"`. -/
theorem cstrStackNew_fails (N : Nat) (args : FmtArgs) (h : args.fails = true) :
    CStrStack.new N args = .error "format failed" := by
  unfold CStrStack.new
  rw [fmtWrite_fails N args h]

/-- The view of a successfully constructed `CStrStack` value is exactly the
rendered content. -/
theorem cstrStackView_eq (N L : Nat) (content : List Nat) (hL : content.length = L)
    (h : L + 1 ≤ N) :
    CStrStack.viewBytes (⟨content ++ List.replicate (N - L) 0, L⟩ : CStrStack N)
      = content := by
  subst hL
  unfold CStrStack.viewBytes
  cases hk : N - content.length with
  | zero => omega
  | succ k =>
    simp only [hk, List.replicate_succ]
    rw [show content ++ 0 :: List.replicate k 0 = (content ++ [0]) ++ List.replicate k 0 by simp]
    rw [show content.length + 1 = (content ++ [0]).length by simp]
    rw [List.take_left]
    simp

/-- Inversion for a successful `CStrStack::new`: the formatter did not fail,
the content fits with its terminator, and the value is the padded buffer. -/
theorem cstrStackNew_ok_inv (N : Nat) (args : FmtArgs) (v : CStrStack N)
    (h : CStrStack.new N args = .ok v) :
    args.fails = false ∧ args.pieces.flatten.length + 1 ≤ N ∧
      v = ⟨args.pieces.flatten ++ List.replicate (N - args.pieces.flatten.length) 0,
           args.pieces.flatten.length⟩ := by
  cases hf : args.fails with
  | true => rw [cstrStackNew_fails N args hf] at h; cases h
  | false =>
    rw [cstrStackNew_eq N args hf] at h
    by_cases hterm : args.pieces.flatten.length + 1 ≤ N
    · rw [if_pos hterm] at h
      cases h
      exact ⟨rfl, hterm, rfl⟩
    · rw [if_neg hterm] at h
      by_cases hfit : args.pieces.flatten.length ≤ N
      · rw [if_pos hfit] at h; cases h
      · rw [if_neg hfit] at h; cases h

/-- Full characterization of `try_stack` inside `CArrayString::new` for a
non-failing formatter. -/
theorem tryStackArr_eq (N : Nat) (args : FmtArgs) (h : args.fails = false) :
    tryStackArr N args =
      if args.pieces.flatten.length + 1 ≤ N then .ok (args.pieces.flatten ++ [0])
      else if args.pieces.flatten.length ≤ N then .error (.OverflowError 0)
      else .error .FormatError := by
  unfold tryStackArr
  rw [fmtWrite_eq N args h]
  by_cases hfit : args.pieces.flatten.length ≤ N
  · rw [if_pos hfit]
    by_cases hterm : args.pieces.flatten.length + 1 ≤ N
    · simp only [if_pos hterm]
    · simp only [if_neg hterm, if_pos hfit]
  · rw [if_neg hfit]
    rw [if_neg (by omega : ¬ args.pieces.flatten.length + 1 ≤ N), if_neg hfit]

/-- With a failing formatter, `try_stack` reports the format error. -/
theorem tryStackArr_fails (N : Nat) (args : FmtArgs) (h : args.fails = true) :
    tryStackArr N args = .error .FormatError := by
  unfold tryStackArr
  rw [fmtWrite_fails N args h]

/-- Full characterization of `CArrayString::<N>::new` for a non-failing
formatter: inline storage when content plus terminator fits, otherwise the
heap fallback, which panics (`none`) when the rendered content contains an
interior NUL. -/
theorem carrNew_eq (N : Nat) (args : FmtArgs) (h : args.fails = false) :
    CArrayString.new N args =
      if args.pieces.flatten.length + 1 ≤ N then
        some (.Stack (args.pieces.flatten ++ [0]))
      else if 0 ∈ args.pieces.flatten then none
      else some (.Heap ⟨args.pieces.flatten⟩) := by
  unfold CArrayString.new
  rw [tryStackArr_eq N args h]
  by_cases hterm : args.pieces.flatten.length + 1 ≤ N
  · rw [if_pos hterm, if_pos hterm]
  · rw [if_neg hterm, if_neg hterm]
    rw [show fmtRender args = some args.pieces.flatten by simp [fmtRender, h]]
    by_cases h0 : 0 ∈ args.pieces.flatten
    · have hcs : CStringM.new args.pieces.flatten
          = .error (args.pieces.flatten.indexOf 0) := by simp [CStringM.new, h0]
      by_cases hfit : args.pieces.flatten.length ≤ N
      · rw [if_pos hfit]; simp only [hcs, if_pos h0]
      · rw [if_neg hfit]; simp only [hcs, if_pos h0]
    · have hcs : CStringM.new args.pieces.flatten = .ok ⟨args.pieces.flatten⟩ := by
        simp [CStringM.new, h0]
      by_cases hfit : args.pieces.flatten.length ≤ N
      · rw [if_pos hfit]; simp only [hcs, if_neg h0]
      · rw [if_neg hfit]; simp only [hcs, if_neg h0]

/-- With a failing formatter, `CArrayString::new` panics in the fallback. -/
theorem carrNew_fails (N : Nat) (args : FmtArgs) (h : args.fails = true) :
    CArrayString.new N args = none := by
  unfold CArrayString.new
  rw [tryStackArr_fails N args h]
  simp [fmtRender, h]

/-- With a failing formatter, the `cstr!` macro panics: every stack attempt
fails and `format!` in the heap fallback aborts. -/
theorem cstrMacro_fails (sizes : List Nat) (args : FmtArgs) (h : args.fails = true) :
    cstrMacro sizes args = none := by
  induction sizes with
  | nil => simp [cstrMacro, fmtRender, h]
  | cons n rest ih =>
    simp only [cstrMacro]
    rw [cstrStackNew_fails n args h]
    exact ih

/-- Round-trip through the `cstr!` macro: whenever it returns a value, the
view is the rendered content (formatter succeeding, content NUL-free). -/
theorem cstrMacro_view (sizes : List Nat) (args : FmtArgs) (h : args.fails = false)
    (h0 : 0 ∉ args.pieces.flatten) :
    (cstrMacro sizes args).map CStrBoxed.viewBytes
      = (cstrMacro sizes args).map (fun _ => args.pieces.flatten) := by
  induction sizes with
  | nil =>
    have hren : fmtRender args = some args.pieces.flatten := by simp [fmtRender, h]
    have hcs : CStringM.new args.pieces.flatten = .ok ⟨args.pieces.flatten⟩ := by
      simp [CStringM.new, h0]
    simp [cstrMacro, hren, hcs, CStrBoxed.viewBytes, CStrHeap.viewBytes, CStrHeap.new]
  | cons n rest ih =>
    simp only [cstrMacro]
    cases hn : CStrStack.new n args with
    | ok v =>
      obtain ⟨hf, hterm, hv⟩ := cstrStackNew_ok_inv n args v hn
      subst hv
      simp only [Option.map, CStrBoxed.viewBytes]
      rw [cstrStackView_eq n _ _ rfl hterm]
    | error e => exact ih

/-- The macro returns `none` (panics) when the content has an interior NUL
and is longer than every stack candidate. -/
theorem cstrMacro_nulNone (sizes : List Nat) (args : FmtArgs) (h : args.fails = false)
    (h0 : 0 ∈ args.pieces.flatten)
    (hlong : ∀ n ∈ sizes, n < args.pieces.flatten.length) :
    cstrMacro sizes args = none := by
  induction sizes with
  | nil =>
    have hren : fmtRender args = some args.pieces.flatten := by simp [fmtRender, h]
    have hcs : CStringM.new args.pieces.flatten
        = .error (args.pieces.flatten.indexOf 0) := by simp [CStringM.new, h0]
    simp [cstrMacro, hren, hcs]
  | cons n rest ih =>
    simp only [cstrMacro]
    have hn : CStrStack.new n args = .error "format failed" := by
      rw [cstrStackNew_eq n args h]
      have := hlong n (by simp)
      rw [if_neg (by omega), if_neg (by omega)]
    rw [hn]
    exact ih (fun m hm => hlong m (by simp [hm]))

/-- `memchr` finds nothing exactly when the byte is absent. -/
theorem memchr_eq_none_iff (b : Nat) (s : List Nat) : memchr b s = none ↔ b ∉ s := by
  induction s with
  | nil => simp [memchr]
  | cons a rest ih =>
    simp only [memchr]
    by_cases hab : a = b
    · simp [hab]
    · rw [if_neg hab]
      simp only [Option.map_eq_none', ih, List.mem_cons]
      constructor
      · intro hr hmem
        rcases hmem with heq | hmem2
        · exact hab heq.symm
        · exact hr hmem2
      · intro hmem hr
        exact hmem (Or.inr hr)

/-- Full characterization of `TryFrom<&str> for CArrayString<N>`. -/
theorem tryFromStr_eq (N : Nat) (s : List Nat) :
    CArrayString.tryFromStr N s =
      if s.length < N then
        if 0 ∈ s then .error .ContainsNulError else .ok (.Stack (s ++ [0]))
      else
        if 0 ∈ s then .error (.NulError (s.indexOf 0)) else .ok (.Heap ⟨s⟩) := by
  unfold CArrayString.tryFromStr
  by_cases hlen : s.length < N
  · rw [if_pos hlen, if_pos hlen]
    by_cases h0 : 0 ∈ s
    · have hex : ∃ i, memchr 0 s = some i := by
        cases hm : memchr 0 s with
        | none => rw [memchr_eq_none_iff] at hm; contradiction
        | some i => exact ⟨i, rfl⟩
      obtain ⟨i, hi⟩ := hex
      rw [hi, if_pos h0]
    · rw [(memchr_eq_none_iff 0 s).mpr h0, if_neg h0]
  · rw [if_neg hlen, if_neg hlen]
    unfold CStringM.new
    by_cases h0 : 0 ∈ s
    · rw [if_pos h0, if_pos h0]
    · rw [if_neg h0, if_neg h0]

/-! ### Claim theorems -/

/-- C1: with candidate stack sizes `[32, 128]`, a formatted string of length
5 yields a value backed by the first (size-32) stack buffer, one of length
100 the size-128 stack buffer, and one of length 300 the heap-backed form;
in all three cases the view reads back exactly the formatted text. -/
theorem claim1_multi_capacity_selection (s5 s100 s300 : List Nat)
    (hl5 : s5.length = 5) (hl100 : s100.length = 100) (hl300 : s300.length = 300)
    (hn300 : 0 ∉ s300) :
    (cstrMacro [32, 128] ⟨[s5], false⟩).map CStrBoxed.stackCap = some (some 32) ∧
    (cstrMacro [32, 128] ⟨[s5], false⟩).map CStrBoxed.viewBytes = some s5 ∧
    (cstrMacro [32, 128] ⟨[s100], false⟩).map CStrBoxed.stackCap = some (some 128) ∧
    (cstrMacro [32, 128] ⟨[s100], false⟩).map CStrBoxed.viewBytes = some s100 ∧
    (cstrMacro [32, 128] ⟨[s300], false⟩).map CStrBoxed.stackCap = some none ∧
    (cstrMacro [32, 128] ⟨[s300], false⟩).map CStrBoxed.viewBytes = some s300 := by
  have e5 : CStrStack.new 32 ⟨[s5], false⟩
      = .ok ⟨s5 ++ List.replicate (32 - s5.length) 0, s5.length⟩ := by
    rw [cstrStackNew_eq 32 ⟨[s5], false⟩ rfl]
    simp only [List.flatten_cons, List.flatten_nil, List.append_nil]
    rw [if_pos (by omega : s5.length + 1 ≤ 32)]
  have m5 : cstrMacro [32, 128] ⟨[s5], false⟩
      = some (.stack 32 ⟨s5 ++ List.replicate (32 - s5.length) 0, s5.length⟩) := by
    simp only [cstrMacro, e5]
  have e100a : CStrStack.new 32 ⟨[s100], false⟩ = .error "format failed" := by
    rw [cstrStackNew_eq 32 ⟨[s100], false⟩ rfl]
    simp only [List.flatten_cons, List.flatten_nil, List.append_nil]
    rw [if_neg (by omega : ¬ s100.length + 1 ≤ 32), if_neg (by omega : ¬ s100.length ≤ 32)]
  have e100b : CStrStack.new 128 ⟨[s100], false⟩
      = .ok ⟨s100 ++ List.replicate (128 - s100.length) 0, s100.length⟩ := by
    rw [cstrStackNew_eq 128 ⟨[s100], false⟩ rfl]
    simp only [List.flatten_cons, List.flatten_nil, List.append_nil]
    rw [if_pos (by omega : s100.length + 1 ≤ 128)]
  have m100 : cstrMacro [32, 128] ⟨[s100], false⟩
      = some (.stack 128 ⟨s100 ++ List.replicate (128 - s100.length) 0, s100.length⟩) := by
    simp only [cstrMacro, e100a, e100b]
  have e300a : CStrStack.new 32 ⟨[s300], false⟩ = .error "format failed" := by
    rw [cstrStackNew_eq 32 ⟨[s300], false⟩ rfl]
    simp only [List.flatten_cons, List.flatten_nil, List.append_nil]
    rw [if_neg (by omega : ¬ s300.length + 1 ≤ 32), if_neg (by omega : ¬ s300.length ≤ 32)]
  have e300b : CStrStack.new 128 ⟨[s300], false⟩ = .error "format failed" := by
    rw [cstrStackNew_eq 128 ⟨[s300], false⟩ rfl]
    simp only [List.flatten_cons, List.flatten_nil, List.append_nil]
    rw [if_neg (by omega : ¬ s300.length + 1 ≤ 128), if_neg (by omega : ¬ s300.length ≤ 128)]
  have hn300f : 0 ∉ ([s300] : List (List Nat)).flatten := by
    simpa using hn300
  have hren : fmtRender ⟨[s300], false⟩ = some s300 := by simp [fmtRender]
  have hcs : CStringM.new s300 = .ok ⟨s300⟩ := by simp [CStringM.new, hn300]
  have m300 : cstrMacro [32, 128] ⟨[s300], false⟩ = some (.heap (CStrHeap.new ⟨s300⟩)) := by
    simp only [cstrMacro, e300a, e300b, hren, hcs]
  refine ⟨?_, ?_, ?_, ?_, ?_, ?_⟩
  · rw [m5]; rfl
  · rw [m5]
    simp only [Option.map, CStrBoxed.viewBytes]
    exact congrArg some (cstrStackView_eq 32 s5.length s5 rfl (by omega))
  · rw [m100]; rfl
  · rw [m100]
    simp only [Option.map, CStrBoxed.viewBytes]
    exact congrArg some (cstrStackView_eq 128 s100.length s100 rfl (by omega))
  · rw [m300]; rfl
  · rw [m300]; rfl

/-- C1 witness: the three scenarios instantiated with concrete `x`-strings. -/
theorem claim1_multi_capacity_selection_witness :
    (cstrMacro [32, 128] ⟨[List.replicate 5 120], false⟩).map CStrBoxed.stackCap
        = some (some 32) ∧
    (cstrMacro [32, 128] ⟨[List.replicate 100 120], false⟩).map CStrBoxed.stackCap
        = some (some 128) ∧
    (cstrMacro [32, 128] ⟨[List.replicate 300 120], false⟩).map CStrBoxed.stackCap
        = some none ∧
    (cstrMacro [32, 128] ⟨[List.replicate 300 120], false⟩).map CStrBoxed.viewBytes
        = some (List.replicate 300 120) := by
  have h := claim1_multi_capacity_selection (List.replicate 5 120) (List.replicate 100 120)
    (List.replicate 300 120) (by simp) (by simp) (by simp) (by simp)
  exact ⟨h.1, h.2.2.1, h.2.2.2.2.1, h.2.2.2.2.2⟩

/-- C2 counterexample: a length-100 content makes the size-32 stack attempt
fail with the crate's formatting-failure error (`FormatError` inside
`CArrayString::new`, `"format failed"` from `CStrStack::new`), yet
construction does fall back — `CArrayString::<32>::new` produces the heap
variant and the macro advances to the size-128 candidate — refuting that a
formatting failure propagates without any fallback. -/
theorem claim2_counterexample :
    tryStackArr 32 ⟨[List.replicate 100 120], false⟩ = .error .FormatError ∧
    CArrayString.new 32 ⟨[List.replicate 100 120], false⟩
      = some (.Heap ⟨List.replicate 100 120⟩) ∧
    CStrStack.new 32 ⟨[List.replicate 100 120], false⟩ = .error "format failed" ∧
    (cstrMacro [32, 128] ⟨[List.replicate 100 120], false⟩).map CStrBoxed.stackCap
      = some (some 128) := by
  refine ⟨by decide, by decide, by decide, by decide⟩

/-- C2 amended: during construction of the unified stack-or-heap type, any
failure of the stack attempt — capacity overflow or formatting failure alike
— triggers the fallback (heap form for `CArrayString::new`, next candidate
for the macro); a formatting failure is never propagated as an error value:
when the formatter itself fails, the heap fallback's re-rendering panics, so
construction aborts instead of returning an error. -/
theorem claim2_fallback_on_any_error (N : Nat) (sizes : List Nat) (args : FmtArgs) :
    ((∃ e, tryStackArr N args = .error e) → args.fails = false →
      (0 ∉ args.pieces.flatten →
        CArrayString.new N args = some (.Heap ⟨args.pieces.flatten⟩)) ∧
      (0 ∈ args.pieces.flatten → CArrayString.new N args = none)) ∧
    (args.fails = true → CArrayString.new N args = none ∧ cstrMacro sizes args = none) := by
  constructor
  · rintro ⟨e, he⟩ hf
    have hterm : ¬ args.pieces.flatten.length + 1 ≤ N := by
      intro hle
      rw [tryStackArr_eq N args hf, if_pos hle] at he
      cases he
    rw [carrNew_eq N args hf, if_neg hterm]
    constructor
    · intro h0
      rw [if_neg h0]
    · intro h0
      rw [if_pos h0]
  · intro hf
    exact ⟨carrNew_fails N args hf, cstrMacro_fails sizes args hf⟩

/-- C2 witness: the amended theorem applied to the length-100 content (stack
attempt fails, heap fallback returned) and to a failing formatter (panic in
both construction paths, no error value). -/
theorem claim2_fallback_on_any_error_witness :
    CArrayString.new 32 ⟨[List.replicate 100 120], false⟩
      = some (.Heap ⟨List.replicate 100 120⟩) ∧
    CArrayString.new 32 ⟨[], true⟩ = none ∧
    cstrMacro [32, 128] ⟨[], true⟩ = none := by
  have h1 := (claim2_fallback_on_any_error 32 [32, 128]
    ⟨[List.replicate 100 120], false⟩).1 ⟨.FormatError, by decide⟩ rfl
  have h2 := (claim2_fallback_on_any_error 32 [32, 128] ⟨[], true⟩).2 rfl
  exact ⟨h1.1 (by decide), h2.1, h2.2⟩

/-- C3 counterexample: with capacity 4, content of length 5 (`>= N`) fails
with `"format failed"`, not with the capacity-overflow error the claim
predicts for every length `>= N`; only the exact-fit length 4 produces
`"stack buffer overflow"`. -/
theorem claim3_counterexample :
    CStrStack.new 4 ⟨[[120, 120, 120, 120, 120]], false⟩ = .error "format failed" ∧
    CStrStack.new 4 ⟨[[120, 120, 120, 120, 120]], false⟩ ≠ .error "stack buffer overflow" ∧
    CStrStack.new 4 ⟨[[120, 120, 120, 120]], false⟩ = .error "stack buffer overflow" := by
  refine ⟨by decide, by decide, by decide⟩

/-- C3 amended: fixed-capacity construction with capacity `N` succeeds
(producing the zero-padded buffer) iff the content length is at most `N-1`;
it fails with the capacity-overflow error exactly when the content length is
exactly `N` (room for the content but not the terminator); content longer
than `N` makes the write into the fixed buffer itself fail, which is
reported as the formatting failure `"format failed"` — the same error the
formatter's own failure produces. -/
theorem claim3_overflow_boundary (N : Nat) (args : FmtArgs) :
    (args.fails = true → CStrStack.new N args = .error "format failed") ∧
    (args.fails = false →
      (args.pieces.flatten.length + 1 ≤ N →
        CStrStack.new N args
          = .ok ⟨args.pieces.flatten ++ List.replicate (N - args.pieces.flatten.length) 0,
                 args.pieces.flatten.length⟩) ∧
      (args.pieces.flatten.length = N →
        CStrStack.new N args = .error "stack buffer overflow") ∧
      (N < args.pieces.flatten.length →
        CStrStack.new N args = .error "format failed")) := by
  constructor
  · exact cstrStackNew_fails N args
  · intro hf
    refine ⟨?_, ?_, ?_⟩
    · intro hterm
      rw [cstrStackNew_eq N args hf, if_pos hterm]
    · intro heq
      rw [cstrStackNew_eq N args hf, if_neg (by omega), if_pos (by omega)]
    · intro hlt
      rw [cstrStackNew_eq N args hf, if_neg (by omega), if_neg (by omega)]

/-- C3 witness: the boundary at capacity 4 — length 3 succeeds, length 4
overflows, length 5 reports the write failure. -/
theorem claim3_overflow_boundary_witness :
    CStrStack.new 4 ⟨[[120, 120, 120]], false⟩ = .ok ⟨[120, 120, 120, 0], 3⟩ ∧
    CStrStack.new 4 ⟨[[120, 120, 120, 120]], false⟩ = .error "stack buffer overflow" ∧
    CStrStack.new 4 ⟨[[120, 120, 120, 120, 120]], false⟩ = .error "format failed" := by
  have h3 := (claim3_overflow_boundary 4 ⟨[[120, 120, 120]], false⟩).2 rfl
  have h4 := (claim3_overflow_boundary 4 ⟨[[120, 120, 120, 120]], false⟩).2 rfl
  have h5 := (claim3_overflow_boundary 4 ⟨[[120, 120, 120, 120, 120]], false⟩).2 rfl
  exact ⟨h3.1 (by decide), h4.2.1 (by decide), h5.2.2 (by decide)⟩

/-- C4: round-trip — for every input text `s` without interior NULs, each of
the three construction paths (fixed-capacity `CStrStack::new`, unified
`CArrayString::new`, multi-capacity `cstr!` selection), whenever it returns
a value, yields a view that reads back exactly `s`. -/
theorem claim4_round_trip (N : Nat) (sizes : List Nat) (args : FmtArgs) (s : List Nat)
    (hf : args.fails = false) (hj : args.pieces.flatten = s) (hn : 0 ∉ s) :
    (CStrStack.new N args).map CStrStack.viewBytes
      = (CStrStack.new N args).map (fun _ => s) ∧
    (CArrayString.new N args).map CArrayString.viewBytes
      = (CArrayString.new N args).map (fun _ => s) ∧
    (cstrMacro sizes args).map CStrBoxed.viewBytes
      = (cstrMacro sizes args).map (fun _ => s) := by
  subst hj
  refine ⟨?_, ?_, ?_⟩
  · rw [cstrStackNew_eq N args hf]
    by_cases hterm : args.pieces.flatten.length + 1 ≤ N
    · rw [if_pos hterm]
      simp only [Except.map]
      rw [cstrStackView_eq N args.pieces.flatten.length args.pieces.flatten rfl hterm]
    · rw [if_neg hterm]
      by_cases hfit : args.pieces.flatten.length ≤ N
      · rw [if_pos hfit]; rfl
      · rw [if_neg hfit]; rfl
  · rw [carrNew_eq N args hf]
    by_cases hterm : args.pieces.flatten.length + 1 ≤ N
    · rw [if_pos hterm]
      simp [CArrayString.viewBytes]
    · rw [if_neg hterm, if_neg hn]
      simp [CArrayString.viewBytes]
  · exact cstrMacro_view sizes args hf hn

/-- C4 witness: round-trip of the two-byte text `"hi"` through all three
paths with capacity 8 and candidates `[32, 128]`. -/
theorem claim4_round_trip_witness :
    (CStrStack.new 8 ⟨[[104, 105]], false⟩).map CStrStack.viewBytes
      = (CStrStack.new 8 ⟨[[104, 105]], false⟩).map (fun _ => [104, 105]) ∧
    (CArrayString.new 8 ⟨[[104, 105]], false⟩).map CArrayString.viewBytes
      = (CArrayString.new 8 ⟨[[104, 105]], false⟩).map (fun _ => [104, 105]) ∧
    (cstrMacro [32, 128] ⟨[[104, 105]], false⟩).map CStrBoxed.viewBytes
      = (cstrMacro [32, 128] ⟨[[104, 105]], false⟩).map (fun _ => [104, 105]) :=
  claim4_round_trip 8 [32, 128] ⟨[[104, 105]], false⟩ [104, 105] rfl (by decide) (by decide)

/-- C5 counterexample: formatter output with an interior NUL (`[97, 0, 98]`)
is stored unvalidated by `CStrStack::<8>::new`, so the buffer holds a zero
byte at position 1, strictly before `len = 3` — refuting that no byte
earlier than `len` in the pointed-to run is `0x00` for values built from
unvalidated formatter output. -/
theorem claim5_counterexample :
    CStrStack.new 8 ⟨[[97, 0, 98]], false⟩ = .ok ⟨[97, 0, 98, 0, 0, 0, 0, 0], 3⟩ ∧
    ([97, 0, 98, 0, 0, 0, 0, 0] : List Nat)[1]? = some 0 ∧ 1 < 3 := by
  refine ⟨by decide, by decide, by decide⟩

/-- C5 amended: for every value built by `CStrStack::new` or
`CArrayString::new`, the byte at position `len` of the run reached through
the pointer accessor is `0x00`; no earlier byte of that run is `0x00`
provided the formatted content itself contains no interior NUL (the
constructors do not validate this). -/
theorem claim5_nul_termination (N : Nat) (args : FmtArgs) :
    (∀ v : CStrStack N, CStrStack.new N args = .ok v →
      v.buf[v.len]? = some 0 ∧ (0 ∉ args.pieces.flatten → 0 ∉ v.buf.take v.len)) ∧
    (∀ w : CArrayString N, CArrayString.new N args = some w →
      w.ptrRun[w.viewBytes.length]? = some 0 ∧
        (0 ∉ args.pieces.flatten → 0 ∉ w.viewBytes)) := by
  constructor
  · intro v hv
    obtain ⟨hf, hterm, hveq⟩ := cstrStackNew_ok_inv N args v hv
    subst hveq
    dsimp only
    constructor
    · obtain ⟨k, hk⟩ : ∃ k, N - args.pieces.flatten.length = k + 1 :=
        ⟨N - args.pieces.flatten.length - 1, by omega⟩
      rw [hk, List.replicate_succ]
      rw [show args.pieces.flatten ++ 0 :: List.replicate k 0
            = (args.pieces.flatten ++ [0]) ++ List.replicate k 0 by simp]
      rw [List.getElem?_append]
      simp [List.getElem?_concat_length]
    · intro h0
      rw [List.take_left]
      exact h0
  · intro w hw
    cases hff : args.fails with
    | true => rw [carrNew_fails N args hff] at hw; cases hw
    | false =>
      rw [carrNew_eq N args hff] at hw
      by_cases hterm : args.pieces.flatten.length + 1 ≤ N
      · rw [if_pos hterm] at hw
        cases hw
        constructor
        · simp only [CArrayString.ptrRun, CArrayString.viewBytes, List.dropLast_concat]
          exact List.getElem?_concat_length _ _
        · intro h0
          simp only [CArrayString.viewBytes, List.dropLast_concat]
          exact h0
      · rw [if_neg hterm] at hw
        by_cases h0 : 0 ∈ args.pieces.flatten
        · rw [if_pos h0] at hw; cases hw
        · rw [if_neg h0] at hw
          cases hw
          constructor
          · simp only [CArrayString.ptrRun, CArrayString.viewBytes]
            exact List.getElem?_concat_length _ _
          · intro h1
            simpa [CArrayString.viewBytes] using h0

/-- C5 witness: the terminator sits right after `"hi"` and no NUL precedes
it, for the values built by both constructors at capacity 8. -/
theorem claim5_nul_termination_witness :
    ([104, 105, 0, 0, 0, 0, 0, 0] : List Nat)[(2 : Nat)]? = some 0 ∧
    0 ∉ ([104, 105, 0, 0, 0, 0, 0, 0] : List Nat).take 2 ∧
    (CArrayString.Stack (N := 8)
      [104, 105, 0]).ptrRun[((CArrayString.Stack (N := 8) [104, 105, 0]).viewBytes).length]?
      = some 0 := by
  have h1 := (claim5_nul_termination 8 ⟨[[104, 105]], false⟩).1
    ⟨[104, 105, 0, 0, 0, 0, 0, 0], 2⟩ (by decide)
  have h2 := (claim5_nul_termination 8 ⟨[[104, 105]], false⟩).2
    (CArrayString.Stack [104, 105, 0]) (by decide)
  exact ⟨h1.1, h1.2 (by decide), h2.1⟩

/-- C6 counterexample: formatted content with an interior NUL and longer
than every candidate reaches the macro's heap fallback, whose
`CString::new(..).unwrap()` panics — construction aborts the process
(modelled `none`) instead of returning an error value. -/
theorem claim6_counterexample :
    cstrMacro [32, 128] ⟨[0 :: List.replicate 300 120], false⟩ = none := by
  rfl

/-- C6 amended: only the explicitly fallible constructors return errors as
values; the `cstr!` macro and `CArrayString::new` assert success on their
heap fallback, so when the rendered content contains an interior NUL and no
stack candidate fits it, construction panics (yields no value and no error)
rather than returning an error value. -/
theorem claim6_panic_on_nul_fallback (sizes : List Nat) (args : FmtArgs)
    (hf : args.fails = false) (h0 : 0 ∈ args.pieces.flatten)
    (hlong : ∀ n ∈ sizes, n < args.pieces.flatten.length) :
    cstrMacro sizes args = none ∧
    ∀ N, N ≤ args.pieces.flatten.length → CArrayString.new N args = none := by
  refine ⟨cstrMacro_nulNone sizes args hf h0 hlong, ?_⟩
  intro N hN
  rw [carrNew_eq N args hf, if_neg (by omega), if_pos h0]

/-- C6 witness: the NUL-carrying content `[104, 0, 105]` panics through the
macro with candidates `[1, 2]` and through `CArrayString::<3>::new`. -/
theorem claim6_panic_on_nul_fallback_witness :
    cstrMacro [1, 2] ⟨[[104, 0, 105]], false⟩ = none ∧
    CArrayString.new 3 ⟨[[104, 0, 105]], false⟩ = none := by
  have h := claim6_panic_on_nul_fallback [1, 2] ⟨[[104, 0, 105]], false⟩ rfl
    (by decide) (by decide)
  exact ⟨h.1, h.2 3 (by decide)⟩

/-- C7: converting existing text that contains a NUL at any position fails
with an embedded-NUL error (`ContainsNulError` on the inline path,
`NulError` on the heap path) and produces no value, for every capacity `N`
— i.e. regardless of which storage form the length would have selected. -/
theorem claim7_embedded_nul_rejection (N : Nat) (s : List Nat) (h : 0 ∈ s) :
    embeddedNulResult (CArrayString.tryFromStr N s) = true := by
  rw [tryFromStr_eq]
  by_cases hlen : s.length < N
  · rw [if_pos hlen, if_pos h]
    rfl
  · rw [if_neg hlen, if_pos h]
    rfl

/-- C7 witness: `[104, 0, 105]` is rejected both when its length would have
selected the inline form (capacity 8) and the heap form (capacity 2). -/
theorem claim7_embedded_nul_rejection_witness :
    (0 ∈ ([104, 0, 105] : List Nat)) ∧
    embeddedNulResult (CArrayString.tryFromStr 8 [104, 0, 105]) = true ∧
    embeddedNulResult (CArrayString.tryFromStr 2 [104, 0, 105]) = true :=
  ⟨by decide, claim7_embedded_nul_rejection 8 [104, 0, 105] (by decide),
    claim7_embedded_nul_rejection 2 [104, 0, 105] (by decide)⟩

/-- C8 counterexample: formatter output with an interior NUL is stored
unvalidated by `CArrayString::new`, so the view contains an embedded NUL;
and `From<&CStr>` trusts the source bytes to be UTF-8, so a non-UTF-8
`CStr` (byte `0xFF`) yields a non-UTF-8 view — refuting the invariant for
every construction path. -/
theorem claim8_counterexample :
    CArrayString.new 8 ⟨[[97, 0, 98]], false⟩ = some (.Stack [97, 0, 98, 0]) ∧
    CArrayString.viewBytes (CArrayString.Stack (N := 8) [97, 0, 98, 0]) = [97, 0, 98] ∧
    ([97, 0, 98] : List Nat)[1]? = some 0 ∧
    CArrayString.fromCStr 4 ⟨[255]⟩ = .Stack [255, 0] ∧
    utf8Check (CArrayString.viewBytes (CArrayString.Stack (N := 4) [255, 0])) = false := by
  refine ⟨by decide, by decide, by decide, by decide, by decide⟩

/-- C8 amended: the view accessor's bytes contain no embedded NUL and are
valid UTF-8 for values built from formatter output that is itself NUL-free
and valid UTF-8, for successful `TryFrom<&str>` conversions of valid-UTF-8
text, and for `From<&CStr>` / `From<CString>` conversions whose source bytes
are NUL-free and valid UTF-8; the code itself performs no such validation
on the formatter-output and `&CStr` paths. -/
theorem claim8_view_invariant (N : Nat) (args : FmtArgs) (s : List Nat) (d : CStrM)
    (c : CStringM) :
    (∀ w : CArrayString N, CArrayString.new N args = some w →
      0 ∉ args.pieces.flatten → utf8Check args.pieces.flatten = true →
      0 ∉ w.viewBytes ∧ utf8Check w.viewBytes = true) ∧
    (∀ w : CArrayString N, CArrayString.tryFromStr N s = .ok w →
      utf8Check s = true → 0 ∉ w.viewBytes ∧ utf8Check w.viewBytes = true) ∧
    (0 ∉ d.bytes → utf8Check d.bytes = true →
      0 ∉ (CArrayString.fromCStr N d).viewBytes ∧
      utf8Check (CArrayString.fromCStr N d).viewBytes = true) ∧
    (0 ∉ c.bytes → utf8Check c.bytes = true →
      0 ∉ (CArrayString.fromCString N c).viewBytes ∧
      utf8Check (CArrayString.fromCString N c).viewBytes = true) := by
  refine ⟨?_, ?_, ?_, ?_⟩
  · intro w hw h0 hu
    cases hff : args.fails with
    | true => rw [carrNew_fails N args hff] at hw; cases hw
    | false =>
      rw [carrNew_eq N args hff] at hw
      by_cases hterm : args.pieces.flatten.length + 1 ≤ N
      · rw [if_pos hterm] at hw
        cases hw
        simp only [CArrayString.viewBytes, List.dropLast_concat]
        exact ⟨h0, hu⟩
      · rw [if_neg hterm, if_neg h0] at hw
        cases hw
        exact ⟨h0, hu⟩
  · intro w hw hu
    rw [tryFromStr_eq] at hw
    by_cases hlen : s.length < N
    · rw [if_pos hlen] at hw
      by_cases h0 : 0 ∈ s
      · rw [if_pos h0] at hw; cases hw
      · rw [if_neg h0] at hw
        cases hw
        simp only [CArrayString.viewBytes, List.dropLast_concat]
        exact ⟨h0, hu⟩
    · rw [if_neg hlen] at hw
      by_cases h0 : 0 ∈ s
      · rw [if_pos h0] at hw; cases hw
      · rw [if_neg h0] at hw
        cases hw
        exact ⟨h0, hu⟩
  · intro h0 hu
    unfold CArrayString.fromCStr
    by_cases hlen : d.bytes.length < N
    · rw [if_pos hlen]
      simp only [CArrayString.viewBytes, List.dropLast_concat]
      exact ⟨h0, hu⟩
    · rw [if_neg hlen]
      exact ⟨h0, hu⟩
  · intro h0 hu
    exact ⟨h0, hu⟩

/-- C8 witness: the amended invariant at concrete NUL-free, valid-UTF-8
inputs for all four paths (formatter output, `&str`, `&CStr`, `CString`). -/
theorem claim8_view_invariant_witness :
    (0 ∉ (CArrayString.Stack (N := 8) [104, 105, 0]).viewBytes ∧
      utf8Check (CArrayString.Stack (N := 8) [104, 105, 0]).viewBytes = true) ∧
    (0 ∉ (CArrayString.Heap (N := 2) ⟨[104, 105]⟩).viewBytes ∧
      utf8Check (CArrayString.Heap (N := 2) (⟨[104, 105]⟩ : CStringM)).viewBytes = true) ∧
    (0 ∉ (CArrayString.fromCStr 8 ⟨[104]⟩).viewBytes ∧
      utf8Check (CArrayString.fromCStr 8 ⟨[104]⟩).viewBytes = true) ∧
    (0 ∉ (CArrayString.fromCString 8 ⟨[104, 105, 106]⟩).viewBytes ∧
      utf8Check (CArrayString.fromCString 8 ⟨[104, 105, 106]⟩).viewBytes = true) := by
  have h8 := claim8_view_invariant 8 ⟨[[104, 105]], false⟩ [104, 105] ⟨[104]⟩ ⟨[104, 105, 106]⟩
  have h2 := claim8_view_invariant 2 ⟨[[104, 105]], false⟩ [104, 105] ⟨[104]⟩ ⟨[104, 105, 106]⟩
  exact ⟨h8.1 (CArrayString.Stack [104, 105, 0]) (by decide) (by decide) (by decide),
    h2.2.1 (CArrayString.Heap ⟨[104, 105]⟩) (by decide) (by decide),
    h8.2.2.1 (by decide) (by decide),
    h8.2.2.2 (by decide) (by decide)⟩

/-- C9: when `CStrStack::<N>::new` succeeds with content length `len`, the
internal buffer has exactly `N` bytes and every byte from position `len`
through `N-1` is `0x00` — the padding is deterministically zero-filled. -/
theorem claim9_zero_padding (N : Nat) (args : FmtArgs) (v : CStrStack N)
    (h : CStrStack.new N args = .ok v) :
    v.buf.length = N ∧ v.buf.drop v.len = List.replicate (N - v.len) 0 := by
  obtain ⟨hf, hterm, hveq⟩ := cstrStackNew_ok_inv N args v h
  subst hveq
  dsimp only
  constructor
  · simp only [List.length_append, List.length_replicate]
    omega
  · rw [List.drop_left]

/-- C9 witness: the successful capacity-8 construction of `"hi"` has an
8-byte buffer whose positions 2 through 7 are all zero. -/
theorem claim9_zero_padding_witness :
    ([104, 105, 0, 0, 0, 0, 0, 0] : List Nat).length = 8 ∧
    ([104, 105, 0, 0, 0, 0, 0, 0] : List Nat).drop 2 = List.replicate (8 - 2) 0 :=
  claim9_zero_padding 8 ⟨[[104, 105]], false⟩ ⟨[104, 105, 0, 0, 0, 0, 0, 0], 2⟩ (by decide)

/-- C10: converting an owned `CString` by value always produces the heap
variant (for every content, even one that would fit inline with its
terminator), while converting a borrowed `&CStr` of byte length less than
`N` produces the inline variant; both views read back the source bytes. -/
theorem claim10_cstring_always_heap (N : Nat) (c : CStringM) (d : CStrM)
    (hd : d.bytes.length < N) :
    CArrayString.fromCString N c = .Heap c ∧
    (CArrayString.fromCString N c).viewBytes = c.bytes ∧
    CArrayString.fromCStr N d = .Stack (d.bytes ++ [0]) ∧
    (CArrayString.fromCStr N d).viewBytes = d.bytes := by
  refine ⟨rfl, rfl, ?_, ?_⟩
  · unfold CArrayString.fromCStr
    rw [if_pos hd]
  · unfold CArrayString.fromCStr
    rw [if_pos hd]
    simp [CArrayString.viewBytes]

/-- C10 witness: the two-byte content `"hi"` plus terminator fits capacity
32, yet the owned-`CString` conversion still yields the heap variant, while
the borrowed-`&CStr` conversion yields the inline variant. -/
theorem claim10_cstring_always_heap_witness :
    CArrayString.fromCString 32 ⟨[104, 105]⟩ = .Heap ⟨[104, 105]⟩ ∧
    CArrayString.fromCStr 32 ⟨[104, 105]⟩ = .Stack [104, 105, 0] ∧
    (2 : Nat) < 32 := by
  have h := claim10_cstring_always_heap 32 ⟨[104, 105]⟩ ⟨[104, 105]⟩ (by decide)
  exact ⟨h.1, h.2.2.1, by decide⟩
